import Mathlib

/-!
Verification development for the agentic_appsec repository: shallow Lean
embeddings of the repository's tool implementations (the HTTP probe tool,
the vector-search tool, the flag server handler) and, modelled from the
specification, the tool-augmented reasoning loop and the read-only
file/directory inspection tools whose modules are referenced by the
scripts but not shipped in the source tree.
-/

namespace AgenticAppsec

/-! ## HTTP probe tool (src/agents/tools/http_tools.py, HttpTool._run) -/

/-- Form data sent with a POST request, as a list of key/value pairs
(the `data` dict of the Python tool input). -/
def FormData := List (String × String)

instance : DecidableEq FormData := by
  unfold FormData
  infer_instance

/-- An outbound request as issued by the tool call site: `httpx.post(url, data=data)`
or `httpx.get(url)`. The call site passes no timeout argument, recorded here as
`timeout := none` (not configured). -/
structure HttpRequestData where
  url : String
  isPost : Bool
  data : Option FormData
  timeout : Option Nat
deriving DecidableEq

/-- A response as seen by the tool: `response.headers` stringified and
`response.text`. -/
structure HttpResponseData where
  headers : String
  text : String

/-- The network environment: maps a request to `some` response, or `none` when
the request raises an unrecoverable fault (e.g. the host is unreachable and
`httpx` raises `ConnectError`). -/
def HttpWorld := HttpRequestData → Option HttpResponseData

/-- Python's `str.upper()` on the method string: uppercase every character.
Stated over the character list so that the kernel can evaluate it. -/
def upperString (s : String) : String := String.mk (s.data.map Char.toUpper)

/-- The single request the tool builds: `httpx.post(url, data=data)` when
`method.upper() == "POST"`, else `httpx.get(url)` (which passes no body). -/
def httpRequestOf (url method : String) (data : Option FormData) : HttpRequestData :=
  if upperString method = "POST" then ⟨url, true, data, none⟩ else ⟨url, false, none, none⟩

/-- Embedding of `HttpTool._run`: returns the list of outbound requests issued
during the call together with the tool's result — the formatted
`"Headers:\n{headers}\n\nBody:\n{body}"` string on success, or the raised
fault's text (`Except.error`) when the request fails. -/
def HttpTool_run (world : HttpWorld) (url method : String) (data : Option FormData) :
    List HttpRequestData × Except String String :=
  let req := httpRequestOf url method data
  match world req with
  | some resp => ([req], .ok ("Headers:\n" ++ resp.headers ++ "\n\nBody:\n" ++ resp.text))
  | none => ([req], .error ("ConnectError: all connection attempts failed: " ++ req.url))

/-! ## Vector similarity search tool (src/scripts/agentic_basic.py, CustomSearchTool._run) -/

/-- A loaded FAISS index: a query returns the top-matching text chunks. -/
def FaissIndex := String → List String

/-- The fault text raised when `FAISS.load_local` cannot load the persisted
index at `../vector_databases/juice_shop_faiss` (missing or corrupt). -/
def faissLoadError : String :=
  "RuntimeError: could not load FAISS index ../vector_databases/juice_shop_faiss"

/-- Embedding of `CustomSearchTool._run`: loads the persisted index and runs
`db.similarity_search(query)`. When the index is missing or corrupt the load
raises, surfaced here as `Except.error`. -/
def CustomSearchTool_run (index : Option FaissIndex) (query : String) : Except String String :=
  match index with
  | none => .error faissLoadError
  | some db => .ok (String.intercalate "\n" (db query))

/-! ## Flag server (src/flagserver/server.py, SimpleHandler.do_GET) -/

/-- One primitive emitted by the request handler, mirroring the
`BaseHTTPRequestHandler` calls the source makes. -/
inductive HandlerAction where
  | sendResponse (code : Nat)
  | sendHeader (key value : String)
  | endHeaders
  | write (bytes : String)
deriving DecidableEq

/-- Embedding of `SimpleHandler.do_GET`: the handler body is a fixed sequence
of calls, independent of the requested path. -/
def SimpleHandler_do_GET (path : String) : List HandlerAction :=
  [ .sendResponse 200,
    .sendHeader "Content-type" "text/plain",
    .endHeaders,
    .write "Hello, world!" ]

/-- The reply a client observes: status line, headers and body. -/
structure HttpReply where
  status : Nat
  headers : List (String × String)
  body : String
deriving DecidableEq

/-! ## File/directory inspection tools

Modelled from the spec: the modules `tools/view_file_tools.py` and
`tools/view_directory_tools.py` (ViewFileTool, ViewFileLinesTool,
DirectoryListingTool, FileListingTool, DirectoryStructureTool) are imported
by src/agents/recon.py and src/scripts/langgraph_react_ssrf.py but are not
part of the source tree. Spec section 4.2 describes them as pure read-only
functions over a filesystem rooted at a configured path, and states that the
source does not enforce a directory-traversal guard. -/

/-- Split a list of characters into groups at every path separator. -/
def splitChars (cs : List Char) : List (List Char) :=
  match cs with
  | [] => [[]]
  | c :: rest =>
    let r := splitChars rest
    if c = '/' then [] :: r
    else
      match r with
      | [] => [[c]]
      | g :: gs => (c :: g) :: gs

/-- Split a path string into its slash-separated components. -/
def splitPath (s : String) : List String := (splitChars s.data).map (fun g => String.mk g)

/-- Resolve a requested path against a base directory: empty and `.`
components are skipped and `..` pops the last component, as the operating
system's path resolution would. -/
def resolvePath (base : List String) (path : String) : List String :=
  List.foldl
    (fun acc c =>
      if c = "" ∨ c = "." then acc
      else if c = ".." then acc.dropLast
      else acc ++ [c])
    base (splitPath path)

/-- Does a resolved path still lie under the configured root? -/
def underRoot (root p : List String) : Bool := root = p.take root.length

/-- A snapshot of the target source tree: each file is its component path
paired with its content. -/
structure FileSystem where
  files : List (List String × String)
deriving DecidableEq

/-- Look up the content stored at a resolved path. -/
def FileSystem.read (fs : FileSystem) (p : List String) : Option String :=
  (fs.files.find? (fun e => e.1 = p)).map (fun e => e.2)

/-- Modelled from the spec: ViewFileTool returns the full text of a file.
Per spec section 4.2 the source enforces no traversal guard, so the lookup
serves whatever the requested path resolves to. -/
def ViewFileTool_run (fs : FileSystem) (root : List String) (path : String) :
    Except String String :=
  match fs.read (resolvePath root path) with
  | some content => .ok content
  | none => .error ("Error: file not found: " ++ path)

/-- The range error reported by the line-range tool. -/
def rangeError : String := "Error: requested line range is out of range"

/-- Modelled from the spec: ViewFileLinesTool returns a specific inclusive
line range of a file, 1-indexed; a start line past the end of the file or
after the end line fails with a range error. The file is given as its list
of lines. -/
def viewFileLinesCore (ls : List String) (s e : Nat) : Except String (List String) :=
  if e < s ∨ ls.length < s then .error rangeError
  else .ok ((ls.drop (s - 1)).take (e + 1 - s))

/-- Split file content into lines at newline characters. -/
def splitLinesChars (cs : List Char) : List (List Char) :=
  match cs with
  | [] => [[]]
  | c :: rest =>
    let r := splitLinesChars rest
    if c = '\n' then [] :: r
    else
      match r with
      | [] => [[c]]
      | g :: gs => (c :: g) :: gs

/-- The lines of a file's content. -/
def linesOf (content : String) : List String :=
  (splitLinesChars content.data).map (fun g => String.mk g)

/-- Modelled from the spec: the line-range tool as invoked with a path,
reading the file under the configured root and rendering the selected lines. -/
def ViewFileLinesTool_run (fs : FileSystem) (root : List String) (path : String)
    (s e : Nat) : Except String String :=
  match fs.read (resolvePath root path) with
  | none => .error ("Error: file not found: " ++ path)
  | some content => (viewFileLinesCore (linesOf content) s e).map (String.intercalate "\n")

/-- The immediate child entry of directory `d` that the path `p` witnesses,
when `p` lies under `d`. -/
def childName (d p : List String) : Option String :=
  if d = p.take d.length then (p.drop d.length).head? else none

/-- Modelled from the spec: DirectoryListingTool lists the immediate entries
of a directory. -/
def DirectoryListingTool_run (fs : FileSystem) (root : List String) (path : String) :
    Except String String :=
  let d := resolvePath root path
  let names := (fs.files.filterMap (fun e => childName d e.1)).dedup
  if names.isEmpty then .error ("Error: no such directory: " ++ path)
  else .ok (String.intercalate "\n" names)

/-- Modelled from the spec: FileListingTool lists all files under a directory
recursively. -/
def FileListingTool_run (fs : FileSystem) (root : List String) (path : String) :
    Except String String :=
  let d := resolvePath root path
  let paths := fs.files.filterMap
    (fun e => if d = e.1.take d.length then some (String.intercalate "/" e.1) else none)
  if paths.isEmpty then .error ("Error: no such directory: " ++ path)
  else .ok (String.intercalate "\n" paths)

/-- Modelled from the spec: DirectoryStructureTool renders an ASCII tree of a
directory up to an optional depth limit, one indented entry per file within
the limit. -/
def DirectoryStructureTool_run (fs : FileSystem) (root : List String) (path : String)
    (depth : Option Nat) : Except String String :=
  let d := resolvePath root path
  let rows := fs.files.filterMap
    (fun e =>
      if d = e.1.take d.length ∧
          (∀ k ∈ depth, e.1.length - d.length ≤ k) then
        some (String.join (List.replicate (e.1.length - d.length) "  ")
          ++ String.intercalate "/" (e.1.drop d.length))
      else none)
  if rows.isEmpty then .error ("Error: no such directory: " ++ path)
  else .ok (String.intercalate "\n" rows)

/-- The input of one read-only inspection tool call, one constructor per tool
in the fixed tool set of the recon scripts. -/
inductive InspectInput where
  | viewFile (path : String)
  | viewLines (path : String) (startLine endLine : Nat)
  | listDir (path : String)
  | listFiles (path : String)
  | tree (path : String) (depth : Option Nat)
deriving DecidableEq

/-- Execute one inspection tool call as a state-passing computation over the
filesystem, returning the (unchanged, read-only) filesystem together with the
tool's text result. -/
def inspectExec (root : List String) (fs : FileSystem) :
    InspectInput → FileSystem × Except String String
  | .viewFile p => (fs, ViewFileTool_run fs root p)
  | .viewLines p a b => (fs, ViewFileLinesTool_run fs root p a b)
  | .listDir p => (fs, DirectoryListingTool_run fs root p)
  | .listFiles p => (fs, FileListingTool_run fs root p)
  | .tree p d => (fs, DirectoryStructureTool_run fs root p d)

/-- Interpret the handler's emitted actions as the reply seen on the wire. -/
def replyOf (acts : List HandlerAction) : HttpReply :=
  List.foldl
    (fun r a =>
      match a with
      | .sendResponse c => { r with status := c }
      | .sendHeader k v => { r with headers := r.headers ++ [(k, v)] }
      | .endHeaders => r
      | .write b => { r with body := r.body ++ b })
    ⟨0, [], ""⟩ acts

/-! ## Tool-augmented reasoning loop

Modelled from the spec: the loop driving the dialogue is the framework's
AgentExecutor (constructed in src/agents/recon.py, src/scripts/agentic_basic.py
and src/scripts/langgraph_react_ssrf.py with `handle_parsing_errors=True`);
its implementation is not part of the source tree. Spec section 4.1 gives its
contract: on each iteration the model's completion is parsed as either an
action directive or a final-answer directive; an action invokes the named tool
and the tool's output (or its failure message) becomes the step's observation;
a completion matching neither shape is a recoverable parse failure whose raw
text is fed back as a corrective observation; `max_iterations` caps the total
number of iterations and exceeding it terminates with a bounded-iteration
failure carrying the partial transcript. -/

/-- One model completion, parsed: an action directive naming a tool and its
input, a final-answer directive, or text matching neither shape. The input
type `ι` is the tool-input type of the active tool set. -/
inductive Completion (ι : Type) where
  | action (tool : String) (input : ι)
  | finalAnswer (text : String)
  | unparsable (raw : String)

/-- One step of the scratchpad: the action taken (none for a parse-failure
step) and the observation fed back to the model. -/
structure Step (ι : Type) where
  action : Option (String × ι)
  observation : String

/-- The terminal result of one task: a final answer with the full transcript,
or a bounded-iteration failure with the partial transcript. These are the only
outcomes — the loop never crashes on tool failure. -/
inductive LoopResult (ι : Type) where
  | finalAnswer (text : String) (transcript : List (Step ι))
  | iterationLimit (transcript : List (Step ι))

/-- A tool set: named synchronous execution functions from input to text
output or a signaled failure. -/
def ToolSet (ι : Type) := List (String × (ι → Except String String))

/-- Look a named tool up in the active tool set. -/
def lookupTool {ι : Type} (tools : ToolSet ι) (name : String) :
    Option (ι → Except String String) :=
  (tools.find? (fun t => t.1 == name)).map (fun t => t.2)

/-- The observation recorded for an action naming a tool that is not in the
tool set: the model is told the tool is invalid. -/
def unknownToolObs (name : String) : String :=
  "Error: " ++ name ++ " is not a valid tool, try one of the registered tools."

/-- The corrective observation for a parse failure: the raw completion text
is surfaced back to the model. -/
def corrObs (raw : String) : String :=
  "Invalid or incomplete response, could not parse the output: " ++ raw

/-- The observation produced by a tool invocation: its return text on
success, or its failure message — captured, never propagated as a crash. -/
def obsOf : Except String String → String
  | .ok t => t
  | .error e => e

/-- Modelled from the spec: the reasoning loop. `model` maps the rendered
scratchpad to the next completion, the `Nat` argument is the remaining
iteration budget (`max_iterations` at the start), the step list the
scratchpad so far. -/
def runLoop {ι : Type} (model : List (Step ι) → Completion ι) (tools : ToolSet ι) :
    Nat → List (Step ι) → LoopResult ι
  | 0, steps => .iterationLimit steps
  | n + 1, steps =>
    match model steps with
    | .finalAnswer t => .finalAnswer t steps
    | .action name input =>
      match lookupTool tools name with
      | some ex => runLoop model tools n (steps ++ [⟨some (name, input), obsOf (ex input)⟩])
      | none => runLoop model tools n (steps ++ [⟨some (name, input), unknownToolObs name⟩])
    | .unparsable raw => runLoop model tools n (steps ++ [⟨none, corrObs raw⟩])

/-- Any loop outcome is a final answer or a bounded-iteration failure; there
is no crashing outcome in the result type. -/
theorem loopResult_shape {ι : Type} (r : LoopResult ι) :
    (∃ t tr, r = .finalAnswer t tr) ∨ (∃ tr, r = .iterationLimit tr) := by
  cases r with
  | finalAnswer t tr => exact Or.inl ⟨t, tr, rfl⟩
  | iterationLimit tr => exact Or.inr ⟨tr, rfl⟩

/-- Unfolding lemma: a final-answer completion terminates the loop. -/
theorem runLoop_succ_final {ι : Type} (model : List (Step ι) → Completion ι)
    (tools : ToolSet ι) (n : Nat) (steps : List (Step ι)) (t : String)
    (hm : model steps = .finalAnswer t) :
    runLoop model tools (n + 1) steps = .finalAnswer t steps := by
  simp only [runLoop, hm]

/-- Unfolding lemma: an action on a registered tool appends a step whose
observation is the tool's output or failure message, and continues. -/
theorem runLoop_succ_action {ι : Type} (model : List (Step ι) → Completion ι)
    (tools : ToolSet ι) (n : Nat) (steps : List (Step ι)) (name : String) (input : ι)
    (ex : ι → Except String String)
    (hm : model steps = .action name input)
    (ht : lookupTool tools name = some ex) :
    runLoop model tools (n + 1) steps
      = runLoop model tools n (steps ++ [⟨some (name, input), obsOf (ex input)⟩]) := by
  simp only [runLoop, hm, ht]

/-- Unfolding lemma: an action on an unregistered tool appends an
unknown-tool observation and continues. -/
theorem runLoop_succ_unknown {ι : Type} (model : List (Step ι) → Completion ι)
    (tools : ToolSet ι) (n : Nat) (steps : List (Step ι)) (name : String) (input : ι)
    (hm : model steps = .action name input)
    (ht : lookupTool tools name = none) :
    runLoop model tools (n + 1) steps
      = runLoop model tools n (steps ++ [⟨some (name, input), unknownToolObs name⟩]) := by
  simp only [runLoop, hm, ht]

/-- Unfolding lemma: a completion matching neither shape appends a corrective
observation and continues. -/
theorem runLoop_succ_unparsable {ι : Type} (model : List (Step ι) → Completion ι)
    (tools : ToolSet ι) (n : Nat) (steps : List (Step ι)) (raw : String)
    (hm : model steps = .unparsable raw) :
    runLoop model tools (n + 1) steps
      = runLoop model tools n (steps ++ [⟨none, corrObs raw⟩]) := by
  simp only [runLoop, hm]

/-! ## Demonstration instances used by the witnesses -/

/-- A model that never produces a final-answer completion. -/
def demoModelNoFinal : List (Step String) → Completion String :=
  fun _ => .action "nope" "x"

/-- A network in which every request raises an unreachable-host fault. -/
def unreachableWorld : HttpWorld := fun _ => none

/-- The HTTP probe tool wired into a loop tool set: the input is the URL, the
method GET, no body, over the unreachable network. -/
def demoHttpExec : String → Except String String :=
  fun u => (HttpTool_run unreachableWorld u "GET" none).2

/-- A tool set holding only the HTTP probe tool. -/
def demoHttpTools : ToolSet String := [("http_tool", demoHttpExec)]

/-- A model that first probes an unreachable URL, then finishes. -/
def demoHttpModel : List (Step String) → Completion String :=
  fun steps => if steps.length = 0 then .action "http_tool" "http://10.0.0.1/latest"
    else .finalAnswer "done"

/-- A model that first produces an unparsable completion, then finishes. -/
def demoParseModel : List (Step String) → Completion String :=
  fun steps => if steps.length = 0 then .unparsable "I think I should look around"
    else .finalAnswer "done"

/-- A tool set holding the vector search tool over a missing index. -/
def demoSearchTools : ToolSet String := [("custom_search", CustomSearchTool_run none)]

/-- A model that first queries the vector search tool, then finishes. -/
def demoSearchModel : List (Step String) → Completion String :=
  fun steps => if steps.length = 0 then .action "custom_search" "authorization checks"
    else .finalAnswer "done"

/-! ## Claim theorems -/

/-- C1: for every tool set and every task for which the model never produces
a final-answer completion, the reasoning loop terminates within
`max_iterations` steps and returns a bounded-iteration failure with the
partial transcript, rather than looping forever. -/
theorem loop_bounded_iteration {ι : Type} (model : List (Step ι) → Completion ι)
    (tools : ToolSet ι) (fuel : Nat) (steps : List (Step ι))
    (hnf : ∀ s t, model s ≠ .finalAnswer t) :
    ∃ tr, runLoop model tools fuel steps = .iterationLimit tr ∧
      tr.length ≤ steps.length + fuel := by
  induction fuel generalizing steps with
  | zero => exact ⟨steps, rfl, by simp⟩
  | succ n ih =>
    cases hc : model steps with
    | finalAnswer t => exact absurd hc (hnf steps t)
    | action name input =>
      cases hl : lookupTool tools name with
      | some ex =>
        obtain ⟨tr, h1, h2⟩ := ih (steps ++ [⟨some (name, input), obsOf (ex input)⟩])
        refine ⟨tr, ?_, ?_⟩
        · rw [runLoop_succ_action model tools n steps name input ex hc hl, h1]
        · simp only [List.length_append, List.length_cons, List.length_nil] at h2
          omega
      | none =>
        obtain ⟨tr, h1, h2⟩ := ih (steps ++ [⟨some (name, input), unknownToolObs name⟩])
        refine ⟨tr, ?_, ?_⟩
        · rw [runLoop_succ_unknown model tools n steps name input hc hl, h1]
        · simp only [List.length_append, List.length_cons, List.length_nil] at h2
          omega
    | unparsable raw =>
      obtain ⟨tr, h1, h2⟩ := ih (steps ++ [⟨none, corrObs raw⟩])
      refine ⟨tr, ?_, ?_⟩
      · rw [runLoop_succ_unparsable model tools n steps raw hc, h1]
      · simp only [List.length_append, List.length_cons, List.length_nil] at h2
        omega

/-- Witness for C1: a model that always requests a tool and never answers is
cut off after the two-iteration budget. -/
theorem loop_bounded_iteration_witness :
    ∃ tr, runLoop demoModelNoFinal [] 2 [] = .iterationLimit tr ∧
      tr.length ≤ ([] : List (Step String)).length + 2 :=
  loop_bounded_iteration demoModelNoFinal [] 2 []
    (fun s t h => by simp [demoModelNoFinal] at h)

/-- C2: when the model selects a registered tool whose execution raises an
unrecoverable fault, the loop does not crash: the failure text becomes that
step's observation, the loop continues on the extended scratchpad, and the
overall outcome is a final answer or a bounded-iteration failure. -/
theorem loop_captures_tool_fault {ι : Type} (model : List (Step ι) → Completion ι)
    (tools : ToolSet ι) (n : Nat) (steps : List (Step ι)) (name : String) (input : ι)
    (ex : ι → Except String String) (msg : String)
    (hm : model steps = .action name input)
    (ht : lookupTool tools name = some ex)
    (he : ex input = .error msg) :
    runLoop model tools (n + 1) steps
      = runLoop model tools n (steps ++ [⟨some (name, input), msg⟩]) ∧
    ((∃ t tr, runLoop model tools (n + 1) steps = .finalAnswer t tr) ∨
      (∃ tr, runLoop model tools (n + 1) steps = .iterationLimit tr)) := by
  constructor
  · rw [runLoop_succ_action model tools n steps name input ex hm ht, he]
    rfl
  · exact loopResult_shape _

/-- Witness for C2: the HTTP probe tool called on an unreachable URL yields a
connection-fault observation and the loop carries on. -/
theorem loop_captures_tool_fault_witness :
    runLoop demoHttpModel demoHttpTools (2 + 1) []
      = runLoop demoHttpModel demoHttpTools 2
          ([] ++ [⟨some ("http_tool", "http://10.0.0.1/latest"),
            "ConnectError: all connection attempts failed: http://10.0.0.1/latest"⟩]) ∧
    ((∃ t tr, runLoop demoHttpModel demoHttpTools (2 + 1) [] = .finalAnswer t tr) ∨
      (∃ tr, runLoop demoHttpModel demoHttpTools (2 + 1) [] = .iterationLimit tr)) :=
  loop_captures_tool_fault demoHttpModel demoHttpTools 2 []
    "http_tool" "http://10.0.0.1/latest" demoHttpExec
    "ConnectError: all connection attempts failed: http://10.0.0.1/latest"
    rfl rfl rfl

/-- C3: a completion matching neither the action shape nor the final-answer
shape is a recoverable parse failure: the raw text is surfaced back to the
model inside a corrective observation on the next iteration, the loop
continues, and the outcome type carries no parse-failure case to propagate
to the caller. -/
theorem loop_recovers_parse_failure {ι : Type} (model : List (Step ι) → Completion ι)
    (tools : ToolSet ι) (n : Nat) (steps : List (Step ι)) (raw : String)
    (hm : model steps = .unparsable raw) :
    runLoop model tools (n + 1) steps
      = runLoop model tools n (steps ++ [⟨none, corrObs raw⟩]) ∧
    (∃ p, corrObs raw = p ++ raw) ∧
    ((∃ t tr, runLoop model tools (n + 1) steps = .finalAnswer t tr) ∨
      (∃ tr, runLoop model tools (n + 1) steps = .iterationLimit tr)) := by
  refine ⟨runLoop_succ_unparsable model tools n steps raw hm, ⟨_, rfl⟩, loopResult_shape _⟩

/-- Witness for C3: an unparsable completion is absorbed as a corrective
observation and the dialogue continues. -/
theorem loop_recovers_parse_failure_witness :
    runLoop demoParseModel [] (1 + 1) []
      = runLoop demoParseModel [] 1
          ([] ++ [⟨none, corrObs "I think I should look around"⟩]) ∧
    (∃ p, corrObs "I think I should look around" = p ++ "I think I should look around") ∧
    ((∃ t tr, runLoop demoParseModel [] (1 + 1) [] = .finalAnswer t tr) ∨
      (∃ tr, runLoop demoParseModel [] (1 + 1) [] = .iterationLimit tr)) :=
  loop_recovers_parse_failure demoParseModel [] 1 [] "I think I should look around" rfl

/-- C5: when the persisted embedding index is missing or corrupt, the vector
search tool's failure is surfaced as a loop-recoverable tool error: it
becomes the step's observation fed back into the dialogue, and the loop does
not crash. -/
theorem loop_recovers_search_index_failure (model : List (Step String) → Completion String)
    (tools : ToolSet String) (n : Nat) (steps : List (Step String)) (query : String)
    (hm : model steps = .action "custom_search" query)
    (ht : lookupTool tools "custom_search" = some (CustomSearchTool_run none)) :
    runLoop model tools (n + 1) steps
      = runLoop model tools n (steps ++ [⟨some ("custom_search", query), faissLoadError⟩]) ∧
    ((∃ t tr, runLoop model tools (n + 1) steps = .finalAnswer t tr) ∨
      (∃ tr, runLoop model tools (n + 1) steps = .iterationLimit tr)) := by
  constructor
  · rw [runLoop_succ_action model tools n steps "custom_search" query
      (CustomSearchTool_run none) hm ht]
    rfl
  · exact loopResult_shape _

/-- Witness for C5: a query against the missing index records the load
failure as the observation and the loop carries on. -/
theorem loop_recovers_search_index_failure_witness :
    runLoop demoSearchModel demoSearchTools (2 + 1) []
      = runLoop demoSearchModel demoSearchTools 2
          ([] ++ [⟨some ("custom_search", "authorization checks"), faissLoadError⟩]) ∧
    ((∃ t tr, runLoop demoSearchModel demoSearchTools (2 + 1) [] = .finalAnswer t tr) ∨
      (∃ tr, runLoop demoSearchModel demoSearchTools (2 + 1) [] = .iterationLimit tr)) :=
  loop_recovers_search_index_failure demoSearchModel demoSearchTools 2 []
    "authorization checks" rfl rfl

/-- A network that answers every request with the flag server's reply. -/
def demoWorld : HttpWorld := fun _ => some ⟨"Content-type: text/plain", "Hello, world!"⟩

/-- Evaluation lemma for the HTTP tool on a served request. -/
theorem HttpTool_run_some (world : HttpWorld) (url method : String) (data : Option FormData)
    (resp : HttpResponseData) (hw : world (httpRequestOf url method data) = some resp) :
    HttpTool_run world url method data
      = ([httpRequestOf url method data],
        .ok ("Headers:\n" ++ resp.headers ++ "\n\nBody:\n" ++ resp.text)) := by
  unfold HttpTool_run
  simp only [hw]

/-- Evaluation lemma for the HTTP tool on a request that raises. -/
theorem HttpTool_run_none (world : HttpWorld) (url method : String) (data : Option FormData)
    (hw : world (httpRequestOf url method data) = none) :
    HttpTool_run world url method data
      = ([httpRequestOf url method data],
        .error ("ConnectError: all connection attempts failed: "
          ++ (httpRequestOf url method data).url)) := by
  unfold HttpTool_run
  simp only [hw]

/-- C4: every invocation of the HTTP probe tool issues exactly one outbound
request — a POST carrying the body when the (uppercased) method is POST,
otherwise a GET — with no retry and no timeout configured, and on success
returns the single string holding the response headers followed by the
response body. -/
theorem http_tool_single_request (world : HttpWorld) (url method : String)
    (data : Option FormData) :
    (HttpTool_run world url method data).1.length = 1 ∧
    (HttpTool_run world url method data).1 = [httpRequestOf url method data] ∧
    (upperString method = "POST" →
      (HttpTool_run world url method data).1 = [⟨url, true, data, none⟩]) ∧
    (upperString method ≠ "POST" →
      (HttpTool_run world url method data).1 = [⟨url, false, none, none⟩]) ∧
    (httpRequestOf url method data).timeout = none ∧
    (∀ resp, world (httpRequestOf url method data) = some resp →
      (HttpTool_run world url method data).2
        = .ok ("Headers:\n" ++ resp.headers ++ "\n\nBody:\n" ++ resp.text)) := by
  have hfst : (HttpTool_run world url method data).1 = [httpRequestOf url method data] := by
    cases hw : world (httpRequestOf url method data) with
    | some resp => rw [HttpTool_run_some world url method data resp hw]
    | none => rw [HttpTool_run_none world url method data hw]
  refine ⟨?_, hfst, ?_, ?_, ?_, ?_⟩
  · rw [hfst]
    rfl
  · intro h
    rw [hfst]
    unfold httpRequestOf
    rw [if_pos h]
  · intro h
    rw [hfst]
    unfold httpRequestOf
    rw [if_neg h]
  · unfold httpRequestOf
    split <;> rfl
  · intro resp hresp
    rw [HttpTool_run_some world url method data resp hresp]

/-- Witness for C4: a lowercase `post` method sends the body as a POST and
the tool's output is the headers-then-body string of the reply. -/
theorem http_tool_single_request_witness :
    (HttpTool_run demoWorld "http://flag:8080/" "post" (some [("q", "1")])).1
      = [⟨"http://flag:8080/", true, some [("q", "1")], none⟩] ∧
    (HttpTool_run demoWorld "http://flag:8080/" "post" (some [("q", "1")])).2
      = .ok ("Headers:\n" ++ "Content-type: text/plain" ++ "\n\nBody:\n" ++ "Hello, world!") :=
  ⟨(http_tool_single_request demoWorld "http://flag:8080/" "post"
      (some [("q", "1")])).2.2.1 (by decide),
   (http_tool_single_request demoWorld "http://flag:8080/" "post"
      (some [("q", "1")])).2.2.2.2.2 ⟨"Content-type: text/plain", "Hello, world!"⟩ rfl⟩

/-- C9: for every method string whose uppercasing is not exactly POST —
DELETE, arbitrary text, anything else — the tool issues a GET and silently
ignores any supplied data body: the result is identical whatever body is
passed. -/
theorem http_tool_non_post_ignores_body (world : HttpWorld) (url method : String)
    (d1 d2 : Option FormData) (h : upperString method ≠ "POST") :
    HttpTool_run world url method d1 = HttpTool_run world url method d2 ∧
    (HttpTool_run world url method d1).1 = [⟨url, false, none, none⟩] := by
  have hreq : ∀ d, httpRequestOf url method d = ⟨url, false, none, none⟩ := by
    intro d
    unfold httpRequestOf
    rw [if_neg h]
  constructor
  · cases hw : world (⟨url, false, none, none⟩ : HttpRequestData) with
    | some resp =>
      rw [HttpTool_run_some world url method d1 resp (by rw [hreq d1]; exact hw),
        HttpTool_run_some world url method d2 resp (by rw [hreq d2]; exact hw),
        hreq d1, hreq d2]
    | none =>
      rw [HttpTool_run_none world url method d1 (by rw [hreq d1]; exact hw),
        HttpTool_run_none world url method d2 (by rw [hreq d2]; exact hw),
        hreq d1, hreq d2]
  · cases hw : world (⟨url, false, none, none⟩ : HttpRequestData) with
    | some resp =>
      rw [HttpTool_run_some world url method d1 resp (by rw [hreq d1]; exact hw), hreq d1]
    | none =>
      rw [HttpTool_run_none world url method d1 (by rw [hreq d1]; exact hw), hreq d1]

/-- Witness for C9: a DELETE with a body probes via GET, and the body makes
no difference to the call. -/
theorem http_tool_non_post_ignores_body_witness :
    HttpTool_run demoWorld "http://flag:8080/admin" "DELETE" (some [("force", "1")])
      = HttpTool_run demoWorld "http://flag:8080/admin" "DELETE" none ∧
    (HttpTool_run demoWorld "http://flag:8080/admin" "DELETE" (some [("force", "1")])).1
      = [⟨"http://flag:8080/admin", false, none, none⟩] :=
  http_tool_non_post_ignores_body demoWorld "http://flag:8080/admin" "DELETE"
    (some [("force", "1")]) none (by decide)

/-- A snapshot tree holding one file inside the configured root and one
sensitive file outside it. -/
def demoFS : FileSystem :=
  ⟨[(["repo", "app.js"], "console.log(1)"), (["etc", "passwd"], "root:x:0:0")]⟩

/-- C6: contrary to the traversal-guard requirement, the file tool as the
source behaves (no guard, per spec section 4.2) serves a `..` path that
resolves outside the configured root instead of rejecting it: requesting
`../etc/passwd` under root `repo` returns the outside file's content. -/
theorem view_file_serves_traversal_path :
    ViewFileTool_run demoFS ["repo"] "../etc/passwd" = .ok "root:x:0:0" ∧
    underRoot ["repo"] (resolvePath ["repo"] "../etc/passwd") = false := by
  constructor <;> rfl

/-- C7: a file-range read whose start line exceeds the end line or the file
length fails with a range error rather than crashing, and the loop records
that error as the step's observation; on a valid request the range is
1-indexed and inclusive: the output has one line per requested index and its
entry for line `i` is line `i` of the file. -/
theorem view_file_lines_range_contract (ls : List String) (s e : Nat) :
    ((e < s ∨ ls.length < s) →
      viewFileLinesCore ls s e = .error rangeError ∧
      (∀ (model : List (Step (Nat × Nat)) → Completion (Nat × Nat))
          (tools : ToolSet (Nat × Nat)) (n : Nat) (steps : List (Step (Nat × Nat))),
        model steps = .action "view_file_lines" (s, e) →
        lookupTool tools "view_file_lines"
          = some (fun i => (viewFileLinesCore ls i.1 i.2).map (String.intercalate "\n")) →
        runLoop model tools (n + 1) steps
          = runLoop model tools n
              (steps ++ [⟨some ("view_file_lines", (s, e)), rangeError⟩]))) ∧
    (1 ≤ s → s ≤ e → e ≤ ls.length →
      ∃ out, viewFileLinesCore ls s e = .ok out ∧ out.length = e - s + 1 ∧
        ∀ i, s ≤ i → i ≤ e → out.getD (i - s) "" = ls.getD (i - 1) "") := by
  constructor
  · intro h
    have herr : viewFileLinesCore ls s e = .error rangeError := by
      unfold viewFileLinesCore
      rw [if_pos h]
    refine ⟨herr, ?_⟩
    intro model tools n steps hm ht
    rw [runLoop_succ_action model tools n steps "view_file_lines" (s, e) _ hm ht]
    have hobs : obsOf ((viewFileLinesCore ls s e).map (String.intercalate "\n"))
        = rangeError := by
      rw [herr]
      rfl
    rw [hobs]
  · intro h1 h2 h3
    have hnot : ¬ (e < s ∨ ls.length < s) := by omega
    refine ⟨(ls.drop (s - 1)).take (e + 1 - s), ?_, ?_, ?_⟩
    · unfold viewFileLinesCore
      rw [if_neg hnot]
    · rw [List.length_take, List.length_drop]
      omega
    · intro i hi1 hi2
      rw [List.getD_eq_getElem?_getD, List.getD_eq_getElem?_getD,
        List.getElem?_take, if_pos (by omega : i - s < e + 1 - s),
        List.getElem?_drop]
      have hidx : s - 1 + (i - s) = i - 1 := by omega
      rw [hidx]

/-- A tool set holding the line-range tool over a three-line file. -/
def demoLinesTools : ToolSet (Nat × Nat) :=
  [("view_file_lines",
    fun i => (viewFileLinesCore ["a", "b", "c"] i.1 i.2).map (String.intercalate "\n"))]

/-- A model that first requests lines 5..2 of the three-line file, then
finishes. -/
def demoLinesModel : List (Step (Nat × Nat)) → Completion (Nat × Nat) :=
  fun steps => if steps.length = 0 then .action "view_file_lines" (5, 2)
    else .finalAnswer "done"

/-- Witness for C7: requesting lines 5..2 of a three-line file produces the
range error and the loop records it as the observation. -/
theorem view_file_lines_range_contract_witness :
    viewFileLinesCore ["a", "b", "c"] 5 2 = .error rangeError ∧
    runLoop demoLinesModel demoLinesTools (1 + 1) []
      = runLoop demoLinesModel demoLinesTools 1
          ([] ++ [⟨some ("view_file_lines", (5, 2)), rangeError⟩]) :=
  ⟨((view_file_lines_range_contract ["a", "b", "c"] 5 2).1 (by omega)).1,
   ((view_file_lines_range_contract ["a", "b", "c"] 5 2).1 (by omega)).2
     demoLinesModel demoLinesTools 1 [] rfl rfl⟩

/-- C8: every read-only inspection tool is side-effect-free over the
filesystem: one invocation leaves the filesystem unchanged, and invoking the
tool a second time with the identical input yields the identical output. -/
theorem inspection_tools_idempotent (root : List String) (fs : FileSystem)
    (i : InspectInput) :
    (inspectExec root fs i).1 = fs ∧
    (inspectExec root (inspectExec root fs i).1 i).2 = (inspectExec root fs i).2 := by
  cases i <;> exact ⟨rfl, rfl⟩

/-- C10: for every GET request to the flag server, whatever the requested
path, the handler replies with status 200, a `Content-type: text/plain`
header, and the exact body `Hello, world!`. -/
theorem flag_server_constant_reply (path : String) :
    replyOf (SimpleHandler_do_GET path)
      = ⟨200, [("Content-type", "text/plain")], "Hello, world!"⟩ := rfl

end AgenticAppsec
